import Mathlib

/-!
Verification of the Expedition Roster CLI (`expedition_cli.py`).

The program is a single-file roster manager: a `Store` holds an in-memory
list of member records (name, role) together with a backing JSON file, and
exposes `add`, `remove`, `list_all`, `list_by_role` and `count`.  The source
ships with the global flag `BUG_MODE = True`, which switches several
functions to deliberately defective behaviour (the defective lines are
labelled `BUG n` in the source comments).

We embed the program shallowly: the backing file is a `FileData` value
(absent, unreadable, wrong shape, or a sequence of member records), the
store is a pair of the member list and the file, and every operation is a
pure function translated line by line from the Python source, including the
`BUG_MODE` conditionals with `BUG_MODE := true` as in the source.
-/

/-- The global flag from the source; the repository ships `BUG_MODE = True`. -/
def BUG_MODE : Bool := true

/-- The fixed role vocabulary `ROLES` from the source. -/
def ROLES : List String := ["штурман", "водитель", "грузчик", "механик"]

/-- Lowercasing of a single character as Python `str.lower` acts on the
characters this program deals with: ASCII letters and Cyrillic letters
(including Ё). -/
def lowerChar (c : Char) : Char :=
  if 0x41 ≤ c.toNat ∧ c.toNat ≤ 0x5A then Char.ofNat (c.toNat + 0x20)
  else if 0x410 ≤ c.toNat ∧ c.toNat ≤ 0x42F then Char.ofNat (c.toNat + 0x20)
  else if c.toNat = 0x401 then Char.ofNat 0x451
  else c

/-- Python `str.lower` on a whole string. -/
def strLower (s : String) : String := String.mk (s.data.map lowerChar)

/-- Python `str.strip`: drop whitespace from both ends. -/
def pyStrip (s : String) : String :=
  String.mk (((s.data.dropWhile Char.isWhitespace).reverse.dropWhile
    Char.isWhitespace).reverse)

/-- `normalize_name` from the source: `value.strip()`. -/
def normalize_name (value : String) : String := pyStrip value

/-- `normalize_name_key` from the source: `value.strip().lower()`. -/
def normalize_name_key (value : String) : String := strLower (pyStrip value)

/-- `normalize_role` from the source: `value.strip().lower()`. -/
def normalize_role (value : String) : String := strLower (pyStrip value)

/-- One roster entry, the dict `\x7b"name": ..., "role": ...\x7d` of the source. -/
structure Member where
  name : String
  role : String
deriving DecidableEq, Repr

/-- The content of the backing file as `Store.load` distinguishes it:
the file may be absent, unreadable or unparseable (the `except` branch),
parseable but not a list, or a list of member records. -/
inductive FileData where
  | absent
  | unparseable
  | nonList
  | seq (ms : List Member)
deriving DecidableEq, Repr

/-- The store: the in-memory roster `self.members` and the backing file. -/
structure Store where
  members : List Member
  file : FileData
deriving DecidableEq, Repr

/-- The member list produced by `Store.load` from a given file content:
a list is taken as is, every other shape yields the empty roster. -/
def loadMembers : FileData → List Member
  | FileData.seq ms => ms
  | _ => []

/-- Whether `Store.load` prints the diagnostic
`ERR: ошибка чтения файла данных`: only in the `except` branch, i.e. on a
read/parse failure. -/
def loadReports : FileData → Bool
  | FileData.unparseable => true
  | _ => false

/-- `Store.load`: replace the in-memory roster by what the file holds. -/
def Store.reload (s : Store) : Store :=
  { s with members := loadMembers s.file }

/-- `Store.save`: serialize the full roster to the file — except that in
bug mode (`BUG 7`) the write is skipped when the roster is empty. -/
def Store.save (s : Store) : Store :=
  if BUG_MODE ∧ s.members.length = 0 then s
  else { s with file := FileData.seq s.members }

/-- Character class of the name regex `[A-Za-zА-Яа-яЁё -]`. -/
def isNameChar (c : Char) : Bool :=
  (0x41 ≤ c.toNat ∧ c.toNat ≤ 0x5A) ∨ (0x61 ≤ c.toNat ∧ c.toNat ≤ 0x7A) ∨
  (0x410 ≤ c.toNat ∧ c.toNat ≤ 0x44F) ∨ c.toNat = 0x401 ∨ c.toNat = 0x451 ∨
  c = ' ' ∨ c = '-'

/-- `re.fullmatch` of the name pattern `^[A-Za-zА-Яа-яЁё -]\x7bmin,40\x7d$`:
every character in the class and the length within bounds. -/
def nameMatches (minLen : Nat) (s : String) : Bool :=
  decide (minLen ≤ s.length) && decide (s.length ≤ 40) && s.data.all isNameChar

/-- The error message of the name validation. -/
def nameErrMsg : String := "имя должно быть 2–40 символов (буквы, пробел, дефис)"

/-- `Store.add(name, role)`: validate the role, the name and uniqueness,
then append and save.  Returns the new store and the `(status, message)`
pair.  Bug-mode deviations, as in the source: the role error message is
`unknown command` (`BUG 8`), the name pattern admits length 0 and 1
(`BUG 1`), the duplicate check is case-sensitive (`BUG 2`), and the role
is stored as typed instead of normalized. -/
def Store.add (s : Store) (name role : String) : Store × String × String :=
  let n := normalize_name name
  let role_in := pyStrip role
  if (if BUG_MODE then strLower role_in else normalize_role role_in) ∉ ROLES then
    (s, "ERR",
      if BUG_MODE then "unknown command"
      else "роль должна быть одной из: " ++ String.intercalate ", " ROLES)
  else if ¬ BUG_MODE ∧ ¬ (2 ≤ n.length ∧ n.length ≤ 40) then
    (s, "ERR", nameErrMsg)
  else if ¬ nameMatches (if BUG_MODE then 0 else 2) n then
    (s, "ERR", nameErrMsg)
  else if (if BUG_MODE then s.members.any (fun m => m.name == n)
           else s.members.any
             (fun m => normalize_name_key m.name == normalize_name_key n)) then
    (s, "ERR", "такое имя уже существует")
  else
    let stored_role := if BUG_MODE then role_in else normalize_role role_in
    let s2 : Store := { s with members := s.members ++ [⟨n, stored_role⟩] }
    (Store.save s2, "OK",
      "добавлен \"" ++ n ++ "\" ("
        ++ (if BUG_MODE then stored_role else normalize_role stored_role) ++ ")")

/-- Stable insertion with respect to a total boolean order: `x` goes in
front of the first element it does not come after. -/
def insertStable (le : Member → Member → Bool) (x : Member) :
    List Member → List Member
  | [] => [x]
  | y :: ys => if le x y then x :: y :: ys else y :: insertStable le x ys

/-- Stable sort, the semantics of Python `sorted` with a key: elements with
equal keys keep their original relative order. -/
def sortStable (le : Member → Member → Bool) : List Member → List Member
  | [] => []
  | x :: xs => insertStable le x (sortStable le xs)

/-- Strict lexicographic comparison of strings by code point, as Python
compares `str` values. -/
def strLt : List Char → List Char → Bool
  | [], [] => false
  | [], _ :: _ => true
  | _ :: _, [] => false
  | a :: as, b :: bs =>
    if a.toNat < b.toNat then true
    else if b.toNat < a.toNat then false
    else strLt as bs

/-- `sorted(items, key=lambda x: x["name"])`: stable ascending by name. -/
def sortByNameAsc (ms : List Member) : List Member :=
  sortStable (fun a b => ¬ strLt b.name.data a.name.data) ms

/-- `sorted(items, key=lambda x: x["name"], reverse=True)`: Python's
`reverse=True` keeps equal keys in original order, which is stable
insertion by the reversed order. -/
def sortByNameDesc (ms : List Member) : List Member :=
  sortStable (fun a b => ¬ strLt a.name.data b.name.data) ms

/-- `Store.list_all`: in bug mode it first re-reads the backing file
(`self.load()`) and sorts descending (`BUG 3`); otherwise it sorts the
in-memory roster ascending.  Returns the (possibly reloaded) store and
the displayed list. -/
def Store.list_all (s : Store) : Store × List Member :=
  if BUG_MODE then
    let s := Store.reload s
    (s, sortByNameDesc s.members)
  else
    (s, sortByNameAsc s.members)

/-- `Store.list_by_role(role)`: in bug mode the filter compares roles
case-sensitively (`BUG 4`) and the sort is descending; otherwise roles are
compared via `normalize_role` and the sort is ascending. -/
def Store.list_by_role (s : Store) (role : String) : List Member :=
  let r := pyStrip role
  if ¬ BUG_MODE then
    let r := normalize_role r
    sortByNameAsc (s.members.filter (fun m => normalize_role m.role == r))
  else
    sortByNameDesc (s.members.filter (fun m => m.role == r))

/-- `Store.remove(name)`: find the member (case-sensitively in bug mode),
delete it, and save — except that in bug mode the save is skipped when the
roster became empty (`BUG 6 + 7`). -/
def Store.remove (s : Store) (name : String) : Store × String × String :=
  let n := normalize_name name
  let idx :=
    if BUG_MODE then s.members.findIdx? (fun m => m.name == n)
    else s.members.findIdx?
      (fun m => normalize_name_key m.name == normalize_name_key n)
  match idx with
  | none => (s, "ERR", "запись с именем \"" ++ n ++ "\" не найдена")
  | some i =>
    let s2 : Store := { s with members := s.members.eraseIdx i }
    let s3 := if ¬ (BUG_MODE ∧ s2.members.length = 0) then Store.save s2 else s2
    (s3, "OK", "удалён \"" ++ n ++ "\"")

/-- `Store.count`: in bug mode the result is lowered by one, floored at 0
(`BUG 5`); otherwise the exact length. -/
def Store.count (s : Store) : Nat :=
  if BUG_MODE then max 0 (s.members.length - 1) else s.members.length

/-! ## Theorems about the claims -/

/-- Helper: `Store.add` either succeeds, or returns `ERR` and leaves the
store (roster and file) untouched — every error branch returns the store
unchanged. -/
theorem add_ok_or_unchanged (s : Store) (name role : String) :
    (Store.add s name role).2.1 = "OK" ∨
    ((Store.add s name role).2.1 = "ERR" ∧ (Store.add s name role).1 = s) := by
  simp only [Store.add, BUG_MODE, ite_true, if_true, not_true, false_and,
    ite_false, if_false]
  split
  · exact Or.inr ⟨rfl, rfl⟩
  · split
    · exact Or.inr ⟨rfl, rfl⟩
    · split
      · exact Or.inr ⟨rfl, rfl⟩
      · exact Or.inl rfl

/-- Claim C10: `add` is atomic on failure — whenever it returns status
`ERR` (invalid role, invalid name, or duplicate), the store, i.e. both the
in-memory member list and the backing file, is unchanged; the member is
appended and `save` is called only on the success path. -/
theorem add_atomic_on_error (s : Store) (name role : String)
    (h : (Store.add s name role).2.1 = "ERR") :
    (Store.add s name role).1 = s := by
  rcases add_ok_or_unchanged s name role with hok | ⟨_, hst⟩
  · rw [hok] at h
    exact absurd h (by decide)
  · exact hst

/-- Witness for C10: adding with the invalid role `повар` fails and leaves
the concrete empty store exactly as it was. -/
theorem add_atomic_on_error_witness :
    (Store.add ⟨[], FileData.absent⟩ "Ann" "повар").1 = ⟨[], FileData.absent⟩ :=
  add_atomic_on_error ⟨[], FileData.absent⟩ "Ann" "повар" (by decide)

/-- Claim C9: `load` never terminates the process — it is a total function
of the file content; a file holding a sequence of member records is loaded
exactly, every other content (absent file, non-sequence shape, unparseable
content) yields an empty roster, and the diagnostic is reported exactly for
read/parse failures. -/
theorem load_never_fatal (s : Store) :
    (∀ ms, s.file = FileData.seq ms → (Store.reload s).members = ms) ∧
    ((∀ ms, s.file ≠ FileData.seq ms) → (Store.reload s).members = []) ∧
    (loadReports s.file = true ↔ s.file = FileData.unparseable) := by
  refine ⟨?_, ?_, ?_⟩
  · intro ms hms
    simp [Store.reload, hms, loadMembers]
  · intro hne
    cases h : s.file with
    | seq ms => exact absurd h (hne ms)
    | absent => simp [Store.reload, h, loadMembers]
    | unparseable => simp [Store.reload, h, loadMembers]
    | nonList => simp [Store.reload, h, loadMembers]
  · cases h : s.file <;> simp [loadReports, h]

/-- Witness for C9: a file holding one record loads exactly that record,
and a file of the wrong shape loads as the empty roster. -/
theorem load_never_fatal_witness :
    (Store.reload ⟨[], FileData.seq [⟨"Ann", "штурман"⟩]⟩).members
      = [⟨"Ann", "штурман"⟩] ∧
    (Store.reload ⟨[⟨"Ann", "штурман"⟩], FileData.nonList⟩).members = [] :=
  ⟨(load_never_fatal ⟨[], FileData.seq [⟨"Ann", "штурман"⟩]⟩).1
      [⟨"Ann", "штурман"⟩] rfl,
   (load_never_fatal ⟨[⟨"Ann", "штурман"⟩], FileData.nonList⟩).2.1
      (fun _ h => FileData.noConfusion h)⟩

/-- Claim C1 (refuted by the shipped code): with `BUG_MODE = True`, removing
the last member skips the save, so after a successful `add` followed by a
successful `remove` the in-memory roster is empty but reloading from the
backing file brings the removed member back — the file keeps a stale
non-empty roster. -/
theorem remove_to_empty_leaves_stale_file :
    (Store.add ⟨[], FileData.absent⟩ "Ann" "штурман").2.1 = "OK" ∧
    (Store.remove (Store.add ⟨[], FileData.absent⟩ "Ann" "штурман").1
      "Ann").2.1 = "OK" ∧
    (Store.remove (Store.add ⟨[], FileData.absent⟩ "Ann" "штурман").1
      "Ann").1.members = [] ∧
    (Store.reload (Store.remove (Store.add ⟨[], FileData.absent⟩ "Ann"
      "штурман").1 "Ann").1).members = [⟨"Ann", "штурман"⟩] := by
  decide

/-- Claim C2 (refuted by the shipped code): with `BUG_MODE = True` the
duplicate check is case-sensitive, so after `add "Ann"` succeeds,
`add "ann"` also succeeds although the two names agree case-insensitively,
and the roster then holds both. -/
theorem duplicate_check_case_sensitive :
    (Store.add (Store.add ⟨[], FileData.absent⟩ "Ann" "штурман").1
      "ann" "штурман").2.1 = "OK" ∧
    (Store.add (Store.add ⟨[], FileData.absent⟩ "Ann" "штурман").1
      "ann" "штурман").1.members
      = [⟨"Ann", "штурман"⟩, ⟨"ann", "штурман"⟩] ∧
    normalize_name_key "Ann" = normalize_name_key "ann" := by
  decide

/-- Claim C3 (refuted by the shipped code): with `BUG_MODE = True`,
`count` lowers the result by one — after adding three valid distinct
members to an empty store the roster has length 3 but `count` returns 2. -/
theorem count_off_by_one :
    ((Store.add (Store.add (Store.add ⟨[], FileData.absent⟩ "Ann"
      "штурман").1 "Bob" "водитель").1 "Eva" "механик").1.members.length = 3) ∧
    Store.count (Store.add (Store.add (Store.add ⟨[], FileData.absent⟩ "Ann"
      "штурман").1 "Bob" "водитель").1 "Eva" "механик").1 = 2 := by
  decide

/-- Claim C4 (refuted by the shipped code): with `BUG_MODE = True`,
`list_all` sorts descending by code point, so for members Zoya, anna, Boris
it returns anna, Zoya, Boris instead of the claimed ascending
case-insensitive order anna, Boris, Zoya. -/
theorem list_all_sorted_descending :
    (Store.list_all ⟨[⟨"Zoya", "штурман"⟩, ⟨"anna", "штурман"⟩,
        ⟨"Boris", "штурман"⟩],
      FileData.seq [⟨"Zoya", "штурман"⟩, ⟨"anna", "штурман"⟩,
        ⟨"Boris", "штурман"⟩]⟩).2
      = [⟨"anna", "штурман"⟩, ⟨"Zoya", "штурман"⟩, ⟨"Boris", "штурман"⟩] ∧
    (Store.list_all ⟨[⟨"Zoya", "штурман"⟩, ⟨"anna", "штурман"⟩,
        ⟨"Boris", "штурман"⟩],
      FileData.seq [⟨"Zoya", "штурман"⟩, ⟨"anna", "штурман"⟩,
        ⟨"Boris", "штурман"⟩]⟩).2
      ≠ [⟨"anna", "штурман"⟩, ⟨"Boris", "штурман"⟩, ⟨"Zoya", "штурман"⟩] := by
  decide

/-- Claim C5 (refuted by the shipped code): with `BUG_MODE = True` the role
is stored as typed and the role filter compares case-sensitively, so after
`add "Ivan" "Штурман"` succeeds, `list_by_role "штурман"` returns the empty
list instead of Ivan. -/
theorem role_filter_case_sensitive :
    (Store.add ⟨[], FileData.absent⟩ "Ivan" "Штурман").2.1 = "OK" ∧
    Store.list_by_role (Store.add ⟨[], FileData.absent⟩ "Ivan" "Штурман").1
      "штурман" = [] := by
  decide

/-- Claim C6 (refuted by the shipped code): with `BUG_MODE = True` the name
pattern admits length 0–40, so the single-character name `A` and even the
empty name are accepted instead of rejected. -/
theorem short_name_accepted :
    (Store.add ⟨[], FileData.absent⟩ "A" "штурман").2.1 = "OK" ∧
    (Store.add ⟨[], FileData.absent⟩ "A" "штурман").1.members
      = [⟨"A", "штурман"⟩] ∧
    (Store.add ⟨[], FileData.absent⟩ "" "штурман").2.1 = "OK" := by
  decide

/-- Claim C7 (refuted by the shipped code): with `BUG_MODE = True` an
invalid role makes `add` answer with the generic `unknown command` string
and not with a message naming the valid roles. -/
theorem bad_role_generic_message :
    Store.add ⟨[], FileData.absent⟩ "Ann" "повар"
      = (⟨[], FileData.absent⟩, "ERR", "unknown command") := by
  decide

/-- Claim C8 (refuted by the shipped code): with `BUG_MODE = True`,
`list_all` re-reads the backing file before answering, so on a store whose
in-memory roster is empty while the file still holds a member, the call
changes the store's state and displays the stale file content. -/
theorem list_all_rereads_file :
    (Store.list_all ⟨[], FileData.seq [⟨"Ann", "штурман"⟩]⟩).1
      ≠ ⟨[], FileData.seq [⟨"Ann", "штурман"⟩]⟩ ∧
    (Store.list_all ⟨[], FileData.seq [⟨"Ann", "штурман"⟩]⟩).1.members
      = [⟨"Ann", "штурман"⟩] ∧
    (Store.list_all ⟨[], FileData.seq [⟨"Ann", "штурман"⟩]⟩).2
      = [⟨"Ann", "штурман"⟩] := by
  decide
